import Mathlib

/-
Verification of the FACEIT championship Discord bot
(`faceit_verification.py`) against its natural-language specification.

The Python source is shallowly embedded below: module-level dictionaries
become association lists or total maps, the Discord/HTTP environment
becomes explicit oracle records whose fields give the outcome of each
external call, and code that can raise becomes `Except`-valued.  All
definitions are translated from the source file, not from the spec.
-/

namespace FaceitBot

/-! ## Announcement store

`announced_tournaments` is a Python dict mapping championship id to the
announcing Discord message id.  Values may be `None` for entries upgraded
from the legacy set format, hence `Option MsgId` values. -/

abbrev ChampId := String
abbrev MsgId := Nat
abbrev Store := List (ChampId × Option MsgId)

/-- Dict lookup: first binding of the key, if any. -/
def lookupStore : Store → ChampId → Option (Option MsgId)
  | [], _ => none
  | (k, v) :: rest, key => if k = key then some v else lookupStore rest key

/-- Dict `pop`: remove the binding of `key` (dict keys are unique, so
removing every binding of `key` agrees with `pop` on well-formed stores). -/
def eraseKey (s : Store) (key : ChampId) : Store :=
  s.filter (fun p => p.1 != key)

/-- Dict assignment `d[key] = v`. -/
def insertKey (s : Store) (key : ChampId) (v : Option MsgId) : Store :=
  eraseKey s key ++ [(key, v)]

theorem lookupStore_append (a b : Store) (key : ChampId) :
    lookupStore (a ++ b) key =
      match lookupStore a key with
      | some v => some v
      | none => lookupStore b key := by
  induction a with
  | nil => rfl
  | cons p rest ih =>
      obtain ⟨k, v⟩ := p
      by_cases h : k = key
      · simp [lookupStore, h]
      · simpa [lookupStore, h] using ih

theorem lookupStore_eraseKey_self (s : Store) (key : ChampId) :
    lookupStore (eraseKey s key) key = none := by
  induction s with
  | nil => rfl
  | cons p rest ih =>
      obtain ⟨k, v⟩ := p
      simp only [eraseKey, List.filter_cons] at ih ⊢
      by_cases hk : k = key
      · simp [hk, ih]
      · simp [hk, lookupStore, ih]

theorem lookupStore_eraseKey_ne (s : Store) (key x : ChampId) (h : x ≠ key) :
    lookupStore (eraseKey s key) x = lookupStore s x := by
  induction s with
  | nil => rfl
  | cons p rest ih =>
      obtain ⟨k, v⟩ := p
      simp only [eraseKey, List.filter_cons] at ih ⊢
      by_cases hk : k = key
      · have hkx : ¬k = x := by rw [hk]; exact Ne.symm h
        simp [hk, hkx, lookupStore, ih, Ne.symm h]
      · by_cases hx : k = x
        · simp [hk, hx, lookupStore, h]
        · simp [hk, hx, lookupStore, ih]

theorem lookupStore_insertKey_self (s : Store) (key : ChampId) (v : Option MsgId) :
    lookupStore (insertKey s key v) key = some v := by
  simp [insertKey, lookupStore_append, lookupStore_eraseKey_self, lookupStore]

theorem lookupStore_insertKey_ne (s : Store) (key x : ChampId) (v : Option MsgId)
    (h : x ≠ key) :
    lookupStore (insertKey s key v) x = lookupStore s x := by
  rw [insertKey, lookupStore_append, lookupStore_eraseKey_ne s key x h]
  cases hs : lookupStore s x with
  | some v' => rfl
  | none => simp [lookupStore, Ne.symm h]

/-! ## `load_announced_tournaments`

The pickle file may be missing, unreadable/undeserializable, a dict
(current format) or a set of ids (legacy format, upgraded to id → None). -/

inductive LoadSource where
  | missing
  | readError (msg : String)
  | dictData (d : Store)
  | setData (s : List ChampId)
deriving DecidableEq, Repr

def load_announced_tournaments : LoadSource → Store
  | .missing => []
  | .readError _ => []
  | .dictData d => d
  | .setData s => s.map (fun k => (k, none))

/-! ## `calculate_win_rate`

The Python function is duck-typed over ints and strings, so arguments are
modelled as Python scalar values.  `round(x, 1)` uses round-half-to-even;
`str` of the resulting one-decimal float prints one fractional digit. -/

inductive PyVal where
  | int (n : Int)
  | str (s : String)
deriving DecidableEq, Repr

/-- Python truthiness of a scalar: 0 and the empty string are falsy. -/
def pyTruthyVal : PyVal → Bool
  | .int n => n != 0
  | .str s => s != ""

/-- Python `int(x)`: identity on ints, parse for strings (`ValueError` on
unparsable input, modelled as `none`). -/
def pyToInt : PyVal → Option Int
  | .int n => some n
  | .str s => s.toInt?

/-- Round-half-to-even of the exact rational `a / b` (`b ≠ 0`), as
Python's `round` on the corresponding value.  (Python rounds the nearest
binary float; the embedding rounds the exact fraction, which agrees
wherever the fraction is representable, in particular on the spec's
examples.) -/
def roundHalfEvenFrac (a b : Int) : Int :=
  let a' := if b < 0 then -a else a
  let b' := if b < 0 then -b else b
  let f := Int.fdiv a' b'
  let r := a' - f * b'
  if 2 * r < b' then f
  else if 2 * r > b' then f + 1
  else if f % 2 = 0 then f else f + 1

/-- `round(a / b, 1)` rendered the way `str` prints a one-decimal float. -/
def formatRound1 (a b : Int) : String :=
  let t := roundHalfEvenFrac (a * 10) b
  let sign := if t < 0 then "-" else ""
  let n := t.natAbs
  sign ++ toString (n / 10) ++ "." ++ toString (n % 10)

/-- `calculate_win_rate(wins, total_matches)`; `.error` marks a
`ValueError` raised by `int()` on an unparsable string. -/
def calculate_win_rate (wins total_matches : PyVal) : Except String String :=
  if !pyTruthyVal total_matches || !pyTruthyVal wins then .ok "0"
  else
    match pyToInt total_matches with
    | none => .error "ValueError"
    | some tm =>
        if tm = 0 then .ok "0"
        else
          match pyToInt wins with
          | none => .error "ValueError"
          | some w => .ok (formatRound1 (w * 100) tm)

/-! ## `FaceitAPI._rate_limited_request`

The body of the `try` block is driven by the outcome of the one outbound
HTTP request.  Every failure arm of the `try`/`except` ladder returns
`None` after printing one log line; the function is total (never raises
to its caller). -/

inductive ApiOutcome where
  | throttled
  | httpStatusError (status : Nat)
  | networkError (msg : String)
  | jsonDecodeError (msg : String)
  | unexpectedError (msg : String)
  | success (body : String)
deriving DecidableEq, Repr

/-- Result value and log lines of one call to `_rate_limited_request`.
An HTTP 429 returns `None`; `raise_for_status` turns other 4xx/5xx into
`ClientResponseError`, a subclass of `aiohttp.ClientError`, caught by the
first `except`; decode errors and any other exception are caught by the
remaining arms. -/
def _rate_limited_request : ApiOutcome → Option String × List String
  | .throttled => (none, ["FACEIT API Rate Limit exceeded! Backing off..."])
  | .httpStatusError _ => (none, ["Network error during API call"])
  | .networkError _ => (none, ["Network error during API call"])
  | .jsonDecodeError _ => (none, ["JSON decode error"])
  | .unexpectedError _ => (none, ["An unexpected error occurred during API call"])
  | .success body => (some body, [])

/-! ## `check_championships`: the tournament sync loop

One cycle iterates over the championships returned by the organizer
listing.  The Discord environment is an oracle record: whether
`bot.get_channel` finds the announcement channel, and the outcome of
`fetch_message`, `message.edit` and `channel.send` per championship id.
Effects record the outward actions of a cycle: a new announcement sent,
an existing message edited to the terminal embed, and each call to
`save_announced_tournaments` with the store it persisted. -/

structure Champ where
  championship_id : ChampId
  status : String
deriving DecidableEq, Repr

inductive FetchResult where
  | found
  | notFound
  | forbidden
  | failed
deriving DecidableEq, Repr

inductive EditResult where
  | ok
  | forbidden
  | failed
deriving DecidableEq, Repr

inductive SendResult where
  | sentOk (m : MsgId)
  | forbidden
  | failed
deriving DecidableEq, Repr

structure SyncEnv where
  channelExists : Bool
  fetchMessage : ChampId → FetchResult
  editMessage : ChampId → EditResult
  sendMessage : ChampId → SendResult

inductive Effect where
  | sent (c : ChampId) (m : MsgId)
  | edited (c : ChampId)
  | persisted (s : Store)
deriving DecidableEq, Repr

/-- The body of the per-championship loop of `check_championships`.
If the id is in the store, the stored message is fetched: `NotFound`
removes the entry and persists; on success a terminal status edits the
message in place, removes the entry and persists; `Forbidden` and other
exceptions only log.  If the id is absent and the status is announceable,
a new message is sent and recorded. -/
def processChamp (env : SyncEnv) (store : Store) (c : Champ) : Store × List Effect :=
  let cid := c.championship_id
  match lookupStore store cid with
  | some _message_id =>
      if env.channelExists then
        match env.fetchMessage cid with
        | .found =>
            if c.status = "finished" ∨ c.status = "cancelled" then
              match env.editMessage cid with
              | .ok =>
                  let store' := eraseKey store cid
                  (store', [.edited cid, .persisted store'])
              | .forbidden => (store, [])
              | .failed => (store, [])
            else (store, [])
        | .notFound =>
            let store' := eraseKey store cid
            (store', [.persisted store'])
        | .forbidden => (store, [])
        | .failed => (store, [])
      else (store, [])
  | none =>
      if c.status = "upcoming" ∨ c.status = "in_progress" then
        if env.channelExists then
          match env.sendMessage cid with
          | .sentOk m =>
              let store' := insertKey store cid (some m)
              (store', [.sent cid m, .persisted store'])
          | .forbidden => (store, [])
          | .failed => (store, [])
        else (store, [])
      else (store, [])

/-- The `for championship in championships_data['items']` loop, threading
the store and concatenating effects in order. -/
def runCycle (env : SyncEnv) : Store → List Champ → Store × List Effect
  | st, [] => (st, [])
  | st, c :: cs =>
      let r := processChamp env st c
      let rest := runCycle env r.1 cs
      (rest.1, r.2 ++ rest.2)

/-- One invocation of `check_championships`: a failed or item-less
listing response aborts the cycle with no change. -/
def check_championships (env : SyncEnv) (store : Store) :
    Option (List Champ) → Store × List Effect
  | none => (store, [])
  | some items => runCycle env store items

/-- Processing a championship with a different id neither changes what the
store holds at `x` nor emits a send or edit effect for `x`. -/
theorem processChamp_other (env : SyncEnv) (st : Store) (c : Champ) (x : ChampId)
    (hx : c.championship_id ≠ x) :
    lookupStore (processChamp env st c).1 x = lookupStore st x
    ∧ (∀ m, Effect.sent x m ∉ (processChamp env st c).2)
    ∧ Effect.edited x ∉ (processChamp env st c).2 := by
  have hxe : x ≠ c.championship_id := Ne.symm hx
  simp only [processChamp]
  repeat' split
  all_goals
    simp_all [lookupStore_eraseKey_ne, lookupStore_insertKey_ne]

/-- A whole cycle over championships whose ids all differ from `x` is
invisible at `x`. -/
theorem runCycle_other (env : SyncEnv) (st : Store) (cs : List Champ) (x : ChampId)
    (hx : ∀ c ∈ cs, c.championship_id ≠ x) :
    lookupStore (runCycle env st cs).1 x = lookupStore st x
    ∧ (∀ m, Effect.sent x m ∉ (runCycle env st cs).2)
    ∧ Effect.edited x ∉ (runCycle env st cs).2 := by
  induction cs generalizing st with
  | nil => simp [runCycle]
  | cons c cs ih =>
      have hc := processChamp_other env st c x (hx c (by simp))
      have hrest := ih (processChamp env st c).1 (fun d hd => hx d (by simp [hd]))
      refine ⟨?_, ?_, ?_⟩
      · simp only [runCycle]
        rw [hrest.1, hc.1]
      · intro m
        simp only [runCycle, List.mem_append]
        push_neg
        exact ⟨hc.2.1 m, (hrest.2.1) m⟩
      · simp only [runCycle, List.mem_append]
        push_neg
        exact ⟨hc.2.2, hrest.2.2⟩

theorem runCycle_append (env : SyncEnv) (st : Store) (as bs : List Champ) :
    runCycle env st (as ++ bs) =
      ((runCycle env (runCycle env st as).1 bs).1,
        (runCycle env st as).2 ++ (runCycle env (runCycle env st as).1 bs).2) := by
  induction as generalizing st with
  | nil => simp [runCycle]
  | cons c cs ih =>
      simp only [List.cons_append, runCycle, List.append_eq, ih, List.append_assoc]

theorem runCycle_cons (env : SyncEnv) (st : Store) (c : Champ) (cs : List Champ) :
    runCycle env st (c :: cs) =
      ((runCycle env (processChamp env st c).1 cs).1,
        (processChamp env st c).2 ++ (runCycle env (processChamp env st c).1 cs).2) := rfl

/-- `discord.NotFound` from `fetch_message`: the entry is popped and the
store persisted; nothing is sent or edited. -/
theorem processChamp_notFound (env : SyncEnv) (st : Store) (c : Champ) (mid : Option MsgId)
    (hin : lookupStore st c.championship_id = some mid)
    (hch : env.channelExists = true)
    (hf : env.fetchMessage c.championship_id = FetchResult.notFound) :
    processChamp env st c =
      (eraseKey st c.championship_id,
        [Effect.persisted (eraseKey st c.championship_id)]) := by
  simp [processChamp, hin, hch, hf]

/-- Successful fetch of an announced tournament in a terminal status, with
a successful edit: the message is edited in place, the entry popped and
the store persisted. -/
theorem processChamp_finishedEdit (env : SyncEnv) (st : Store) (c : Champ) (mid : Option MsgId)
    (hin : lookupStore st c.championship_id = some mid)
    (hch : env.channelExists = true)
    (hf : env.fetchMessage c.championship_id = FetchResult.found)
    (hst : c.status = "finished" ∨ c.status = "cancelled")
    (he : env.editMessage c.championship_id = EditResult.ok) :
    processChamp env st c =
      (eraseKey st c.championship_id,
        [Effect.edited c.championship_id,
          Effect.persisted (eraseKey st c.championship_id)]) := by
  simp only [processChamp, hin, hch, hf, he, if_pos hst, if_true]

/-- A previously unseen announceable tournament is announced and recorded. -/
theorem processChamp_announce (env : SyncEnv) (st : Store) (c : Champ) (m : MsgId)
    (hout : lookupStore st c.championship_id = none)
    (hst : c.status = "upcoming" ∨ c.status = "in_progress")
    (hch : env.channelExists = true)
    (hsend : env.sendMessage c.championship_id = SendResult.sentOk m) :
    processChamp env st c =
      (insertKey st c.championship_id (some m),
        [Effect.sent c.championship_id m,
          Effect.persisted (insertKey st c.championship_id (some m))]) := by
  simp only [processChamp, hout, hch, hsend, if_pos hst, if_true]

/-- An unseen tournament in a non-announceable status is ignored. -/
theorem processChamp_stale (env : SyncEnv) (st : Store) (c : Champ)
    (hout : lookupStore st c.championship_id = none)
    (h1 : c.status ≠ "upcoming") (h2 : c.status ≠ "in_progress") :
    processChamp env st c = (st, []) := by
  simp [processChamp, hout, h1, h2]

/-- C1: if a tournament returned by the organizer listing is in the
announcement store and fetching its stored message raises `NotFound`, the
cycle removes the identifier from the store and persists it, publishing no
replacement message for that tournament in that cycle; and if the status
is still upcoming or in-progress, the next cycle announces it again as a
new message and re-adds the identifier to the store.  Listing ids are
assumed pairwise distinct (hypotheses split each listing around `c`). -/
theorem check_championships_deleted_message_reannounce
    (env env2 : SyncEnv) (st : Store) (l1 l2 l1' l2' : List Champ) (c : Champ)
    (mid : Option MsgId)
    (hin : lookupStore st c.championship_id = some mid)
    (h1 : ∀ x ∈ l1, x.championship_id ≠ c.championship_id)
    (h2 : ∀ x ∈ l2, x.championship_id ≠ c.championship_id)
    (hch : env.channelExists = true)
    (hf : env.fetchMessage c.championship_id = FetchResult.notFound)
    (hst : c.status = "upcoming" ∨ c.status = "in_progress")
    (h1' : ∀ x ∈ l1', x.championship_id ≠ c.championship_id)
    (h2' : ∀ x ∈ l2', x.championship_id ≠ c.championship_id)
    (hch2 : env2.channelExists = true)
    (m : MsgId) (hsend : env2.sendMessage c.championship_id = SendResult.sentOk m) :
    lookupStore (check_championships env st (some (l1 ++ c :: l2))).1 c.championship_id = none
    ∧ (∃ s', Effect.persisted s' ∈ (check_championships env st (some (l1 ++ c :: l2))).2
        ∧ lookupStore s' c.championship_id = none)
    ∧ (∀ m', Effect.sent c.championship_id m'
        ∉ (check_championships env st (some (l1 ++ c :: l2))).2)
    ∧ lookupStore (check_championships env2
        (check_championships env st (some (l1 ++ c :: l2))).1 (some (l1' ++ c :: l2'))).1
        c.championship_id = some (some m)
    ∧ Effect.sent c.championship_id m ∈ (check_championships env2
        (check_championships env st (some (l1 ++ c :: l2))).1 (some (l1' ++ c :: l2'))).2 := by
  have hA := runCycle_other env st l1 c.championship_id h1
  have hst1 : lookupStore (runCycle env st l1).1 c.championship_id = some mid := by
    rw [hA.1, hin]
  have hpc := processChamp_notFound env (runCycle env st l1).1 c mid hst1 hch hf
  have hEq : check_championships env st (some (l1 ++ c :: l2))
      = ((runCycle env (eraseKey (runCycle env st l1).1 c.championship_id) l2).1,
         (runCycle env st l1).2
           ++ ([Effect.persisted (eraseKey (runCycle env st l1).1 c.championship_id)]
             ++ (runCycle env (eraseKey (runCycle env st l1).1 c.championship_id) l2).2)) := by
    show runCycle env st (l1 ++ c :: l2) = _
    rw [runCycle_append, runCycle_cons, hpc]
  have hB := runCycle_other env
    (eraseKey (runCycle env st l1).1 c.championship_id) l2 c.championship_id h2
  have hS : lookupStore (check_championships env st (some (l1 ++ c :: l2))).1
      c.championship_id = none := by
    rw [hEq]
    exact hB.1.trans (lookupStore_eraseKey_self _ _)
  refine ⟨hS, ?_, ?_, ?_, ?_⟩
  · exact ⟨eraseKey (runCycle env st l1).1 c.championship_id,
      by rw [hEq]; simp, lookupStore_eraseKey_self _ _⟩
  · intro m'
    rw [hEq]
    simp only [List.mem_append, List.mem_singleton]
    push_neg
    exact ⟨hA.2.1 m', by simp, hB.2.1 m'⟩
  all_goals
    have hA' := runCycle_other env2 (check_championships env st (some (l1 ++ c :: l2))).1
      l1' c.championship_id h1'
    have hout' : lookupStore
        (runCycle env2 (check_championships env st (some (l1 ++ c :: l2))).1 l1').1
        c.championship_id = none := by rw [hA'.1, hS]
    have hpc' := processChamp_announce env2
      (runCycle env2 (check_championships env st (some (l1 ++ c :: l2))).1 l1').1
      c m hout' hst hch2 hsend
    have hEq' : check_championships env2
        (check_championships env st (some (l1 ++ c :: l2))).1 (some (l1' ++ c :: l2'))
        = ((runCycle env2 (insertKey
            (runCycle env2 (check_championships env st (some (l1 ++ c :: l2))).1 l1').1
            c.championship_id (some m)) l2').1,
           (runCycle env2 (check_championships env st (some (l1 ++ c :: l2))).1 l1').2
             ++ ([Effect.sent c.championship_id m,
                  Effect.persisted (insertKey
                    (runCycle env2 (check_championships env st (some (l1 ++ c :: l2))).1 l1').1
                    c.championship_id (some m))]
               ++ (runCycle env2 (insertKey
                    (runCycle env2 (check_championships env st (some (l1 ++ c :: l2))).1 l1').1
                    c.championship_id (some m)) l2').2)) := by
      show runCycle env2 _ (l1' ++ c :: l2') = _
      rw [runCycle_append, runCycle_cons, hpc']
    have hB' := runCycle_other env2 (insertKey
        (runCycle env2 (check_championships env st (some (l1 ++ c :: l2))).1 l1').1
        c.championship_id (some m)) l2' c.championship_id h2'
  · rw [hEq']
    exact hB'.1.trans (lookupStore_insertKey_self _ _ _)
  · rw [hEq']
    simp

/-- C1 witness: a one-tournament listing whose stored message was deleted
externally; the cycle drops the entry, and the next cycle re-announces. -/
def c1Env : SyncEnv :=
  ⟨true, fun _ => FetchResult.notFound, fun _ => EditResult.ok, fun _ => SendResult.sentOk 1⟩

def c1Env2 : SyncEnv :=
  ⟨true, fun _ => FetchResult.found, fun _ => EditResult.ok, fun _ => SendResult.sentOk 42⟩

def c1Champ : Champ := ⟨"t", "upcoming"⟩

theorem check_championships_deleted_message_reannounce_witness :
    lookupStore (check_championships c1Env [("t", some 7)] (some [c1Champ])).1 "t" = none
    ∧ (∃ s', Effect.persisted s' ∈ (check_championships c1Env [("t", some 7)] (some [c1Champ])).2
        ∧ lookupStore s' "t" = none)
    ∧ (∀ m', Effect.sent "t" m'
        ∉ (check_championships c1Env [("t", some 7)] (some [c1Champ])).2)
    ∧ lookupStore (check_championships c1Env2
        (check_championships c1Env [("t", some 7)] (some [c1Champ])).1 (some [c1Champ])).1 "t"
        = some (some 42)
    ∧ Effect.sent "t" 42 ∈ (check_championships c1Env2
        (check_championships c1Env [("t", some 7)] (some [c1Champ])).1 (some [c1Champ])).2 := by
  have h := check_championships_deleted_message_reannounce c1Env c1Env2 [("t", some 7)]
    [] [] [] [] c1Champ (some 7) rfl (by simp) (by simp) rfl rfl (Or.inl rfl)
    (by simp) (by simp) rfl 42 rfl
  simpa [c1Champ] using h

/-- C2: an announced tournament whose listed status is finished or
cancelled, whose stored message is fetched successfully and edited
successfully, has its message edited in place (no new message published
for it) and its identifier removed from the store and persisted; a second
cycle over the unchanged listing performs no further edit or send for it. -/
theorem check_championships_finished_edit_once
    (env env2 : SyncEnv) (st : Store) (l1 l2 : List Champ) (c : Champ) (mid : Option MsgId)
    (hin : lookupStore st c.championship_id = some mid)
    (h1 : ∀ x ∈ l1, x.championship_id ≠ c.championship_id)
    (h2 : ∀ x ∈ l2, x.championship_id ≠ c.championship_id)
    (hch : env.channelExists = true)
    (hf : env.fetchMessage c.championship_id = FetchResult.found)
    (hst : c.status = "finished" ∨ c.status = "cancelled")
    (he : env.editMessage c.championship_id = EditResult.ok) :
    Effect.edited c.championship_id ∈ (check_championships env st (some (l1 ++ c :: l2))).2
    ∧ (∀ m, Effect.sent c.championship_id m
        ∉ (check_championships env st (some (l1 ++ c :: l2))).2)
    ∧ lookupStore (check_championships env st (some (l1 ++ c :: l2))).1 c.championship_id = none
    ∧ (∃ s', Effect.persisted s' ∈ (check_championships env st (some (l1 ++ c :: l2))).2
        ∧ lookupStore s' c.championship_id = none)
    ∧ Effect.edited c.championship_id ∉ (check_championships env2
        (check_championships env st (some (l1 ++ c :: l2))).1 (some (l1 ++ c :: l2))).2
    ∧ (∀ m, Effect.sent c.championship_id m ∉ (check_championships env2
        (check_championships env st (some (l1 ++ c :: l2))).1 (some (l1 ++ c :: l2))).2) := by
  have hup : c.status ≠ "upcoming" := by
    rcases hst with h | h <;> rw [h] <;> decide
  have hip : c.status ≠ "in_progress" := by
    rcases hst with h | h <;> rw [h] <;> decide
  have hA := runCycle_other env st l1 c.championship_id h1
  have hst1 : lookupStore (runCycle env st l1).1 c.championship_id = some mid := by
    rw [hA.1, hin]
  have hpc := processChamp_finishedEdit env (runCycle env st l1).1 c mid hst1 hch hf hst he
  have hEq : check_championships env st (some (l1 ++ c :: l2))
      = ((runCycle env (eraseKey (runCycle env st l1).1 c.championship_id) l2).1,
         (runCycle env st l1).2
           ++ ([Effect.edited c.championship_id,
                Effect.persisted (eraseKey (runCycle env st l1).1 c.championship_id)]
             ++ (runCycle env (eraseKey (runCycle env st l1).1 c.championship_id) l2).2)) := by
    show runCycle env st (l1 ++ c :: l2) = _
    rw [runCycle_append, runCycle_cons, hpc]
  have hB := runCycle_other env
    (eraseKey (runCycle env st l1).1 c.championship_id) l2 c.championship_id h2
  have hS : lookupStore (check_championships env st (some (l1 ++ c :: l2))).1
      c.championship_id = none := by
    rw [hEq]
    exact hB.1.trans (lookupStore_eraseKey_self _ _)
  refine ⟨?_, ?_, hS, ?_, ?_, ?_⟩
  · rw [hEq]; simp
  · intro m
    rw [hEq]
    simp only [List.mem_append, List.mem_cons, List.mem_singleton]
    push_neg
    refine ⟨hA.2.1 m, ⟨by simp, by simp⟩, hB.2.1 m⟩
  · exact ⟨eraseKey (runCycle env st l1).1 c.championship_id,
      by rw [hEq]; simp, lookupStore_eraseKey_self _ _⟩
  all_goals
    have hA' := runCycle_other env2 (check_championships env st (some (l1 ++ c :: l2))).1
      l1 c.championship_id h1
    have hout' : lookupStore
        (runCycle env2 (check_championships env st (some (l1 ++ c :: l2))).1 l1).1
        c.championship_id = none := by rw [hA'.1, hS]
    have hpc' := processChamp_stale env2
      (runCycle env2 (check_championships env st (some (l1 ++ c :: l2))).1 l1).1
      c hout' hup hip
    have hEq' : check_championships env2
        (check_championships env st (some (l1 ++ c :: l2))).1 (some (l1 ++ c :: l2))
        = ((runCycle env2
            (runCycle env2 (check_championships env st (some (l1 ++ c :: l2))).1 l1).1 l2).1,
           (runCycle env2 (check_championships env st (some (l1 ++ c :: l2))).1 l1).2
             ++ ([] ++ (runCycle env2
               (runCycle env2 (check_championships env st (some (l1 ++ c :: l2))).1 l1).1
               l2).2)) := by
      show runCycle env2 _ (l1 ++ c :: l2) = _
      rw [runCycle_append, runCycle_cons, hpc']
    have hB' := runCycle_other env2
      (runCycle env2 (check_championships env st (some (l1 ++ c :: l2))).1 l1).1
      l2 c.championship_id h2
  · rw [hEq']
    simp only [List.nil_append, List.mem_append]
    push_neg
    exact ⟨hA'.2.2, hB'.2.2⟩
  · intro m
    rw [hEq']
    simp only [List.nil_append, List.mem_append]
    push_neg
    exact ⟨hA'.2.1 m, hB'.2.1 m⟩

/-- C2 witness: one announced finished tournament; the first cycle edits
and removes it, the second cycle is silent for it. -/
def c2Env : SyncEnv :=
  ⟨true, fun _ => FetchResult.found, fun _ => EditResult.ok, fun _ => SendResult.sentOk 9⟩

def c2Champ : Champ := ⟨"u", "finished"⟩

theorem check_championships_finished_edit_once_witness :
    Effect.edited "u" ∈ (check_championships c2Env [("u", some 3)] (some [c2Champ])).2
    ∧ (∀ m, Effect.sent "u" m
        ∉ (check_championships c2Env [("u", some 3)] (some [c2Champ])).2)
    ∧ lookupStore (check_championships c2Env [("u", some 3)] (some [c2Champ])).1 "u" = none
    ∧ (∃ s', Effect.persisted s' ∈ (check_championships c2Env [("u", some 3)] (some [c2Champ])).2
        ∧ lookupStore s' "u" = none)
    ∧ Effect.edited "u" ∉ (check_championships c2Env
        (check_championships c2Env [("u", some 3)] (some [c2Champ])).1 (some [c2Champ])).2
    ∧ (∀ m, Effect.sent "u" m ∉ (check_championships c2Env
        (check_championships c2Env [("u", some 3)] (some [c2Champ])).1 (some [c2Champ])).2) := by
  have h := check_championships_finished_edit_once c2Env c2Env [("u", some 3)]
    [] [] c2Champ (some 3) rfl (by simp) (by simp) rfl rfl (Or.inl rfl) rfl
  simpa [c2Champ] using h

/-- C10: loading the announcement store is total: a missing file, or any
read or deserialization failure, yields the empty mapping rather than an
exception (a corrupt store file silently resets the persisted state). -/
theorem load_announced_tournaments_total :
    load_announced_tournaments LoadSource.missing = []
    ∧ ∀ msg, load_announced_tournaments (LoadSource.readError msg) = [] :=
  ⟨rfl, fun _ => rfl⟩

/-- C9: `calculate_win_rate(0, 0)` is the string `"0"` and
`calculate_win_rate(5, 20)` is `"25.0"` (the percentage rounded to one
decimal place, printed as Python prints the resulting float). -/
theorem calculate_win_rate_examples :
    calculate_win_rate (PyVal.int 0) (PyVal.int 0) = Except.ok "0"
    ∧ calculate_win_rate (PyVal.int 5) (PyVal.int 20) = Except.ok "25.0" :=
  ⟨rfl, rfl⟩

/-- C7: every failing outcome of one `_rate_limited_request` call — a
throttling response, an HTTP error status, a transport failure, a
malformed payload, or any other unexpected exception — yields an absent
result together with exactly one log line; the embedded function is total,
so no outcome raises to the caller. -/
theorem rate_limited_request_never_raises (o : ApiOutcome)
    (h : ∀ body, o ≠ ApiOutcome.success body) :
    (_rate_limited_request o).1 = none ∧ (_rate_limited_request o).2.length = 1 := by
  cases o
  case success body => exact absurd rfl (h body)
  all_goals exact ⟨rfl, rfl⟩

theorem rate_limited_request_never_raises_witness :
    (_rate_limited_request ApiOutcome.throttled).1 = none
    ∧ (_rate_limited_request ApiOutcome.throttled).2.length = 1 :=
  rate_limited_request_never_raises ApiOutcome.throttled (by intro body; simp)

/-! ## The `/stats` command

Per-user cooldowns live in `user_cooldowns`, a `defaultdict(float)`:
extensionally a total map from user id to timestamp defaulting to `0.0`
(the `defaultdict` inserting its default on read is invisible in the
total-map view).  The FACEIT responses the handler consumes are oracle
fields; code that can raise (`[0]` on an empty list, `.get` on `None`,
`.replace` on `None`, `int()` on junk) is `Except`-valued, and an
escaping exception becomes the `crashed` response (the command framework
catches it; the handler code past the raise, including the cooldown
update, does not run). -/

inductive Glyph where
  | win
  | loss
deriving DecidableEq, Repr

/-- Python truthiness of an optional string (`None` and `""` are falsy). -/
def pyTruthy : Option String → Bool
  | none => false
  | some s => s != ""

/-- One element of `player_history["items"]`, holding exactly the fields
the handler reads: `teams.faction1.players[*].player_id`,
`teams.faction1.faction_id` and `results.winner_id`, each `none` when the
key is missing at any level of the `.get` chain.  `faction2` is carried
so that the requesting player's own side is expressible; the source never
reads it. -/
structure PyMatch where
  faction1_players : List (Option String)
  faction1_faction_id : Option String
  faction2_players : List (Option String)
  faction2_faction_id : Option String
  winner_id : Option String
deriving DecidableEq, Repr

/-- The body of the recent-results loop for one match.
`match.get("teams", {}).get("faction1", {}).get("players", [])[0]` raises
`IndexError` when the players list is missing or empty; otherwise the
winner id is compared against `faction1`'s faction id (regardless of
which faction the requesting player is on). -/
def matchGlyph (m : PyMatch) : Except String (Option Glyph) :=
  match m.faction1_players with
  | [] => .error "IndexError"
  | firstPlayer :: _ =>
      if pyTruthy m.winner_id && pyTruthy firstPlayer then
        if m.winner_id = m.faction1_faction_id then .ok (some .win)
        else .ok (some .loss)
      else .ok none

/-- The whole `for match in recent_results` loop: glyphs in match order,
skipped matches contributing nothing; a raised exception aborts the loop
(and the command) and discards everything. -/
def recentResultIcons : List PyMatch → Except String (List Glyph)
  | [] => .ok []
  | m :: ms =>
      match matchGlyph m with
      | .error e => .error e
      | .ok g =>
          match recentResultIcons ms with
          | .error e => .error e
          | .ok gs =>
              match g with
              | none => .ok gs
              | some glyph => .ok (glyph :: gs)

/-- The faction identifier of the side the given player is on in a match
(the spec's "requesting player's own faction identifier"). -/
def playerFactionId (pid : String) (m : PyMatch) : Option String :=
  if some pid ∈ m.faction1_players then m.faction1_faction_id
  else if some pid ∈ m.faction2_players then m.faction2_faction_id
  else none

structure PlayerData where
  player_id : String
  faceit_url : Option String
deriving DecidableEq, Repr

/-- The `"lifetime"` dict of the stats payload; only `Wins` and `Matches`
feed computation (`K/D` and `HS%` are copied verbatim into embed text). -/
structure LifetimeStats where
  wins : Option String
  matchCount : Option String
deriving DecidableEq, Repr

structure PlayerStatsPayload where
  lifetime : Option LifetimeStats
deriving DecidableEq, Repr

structure HistoryPayload where
  items : Option (List PyMatch)
deriving DecidableEq, Repr

/-- The oracle for one `/stats` invocation: the current wall-clock
timestamp and the three FACEIT responses the handler would receive. -/
structure StatsEnv where
  now : ℚ
  player_data : Option PlayerData
  player_stats : Option PlayerStatsPayload
  player_history : Option HistoryPayload

def RATE_LIMIT_COOLDOWN : ℚ := 5

abbrev CooldownMap := Nat → ℚ

def updateCooldown (m : CooldownMap) (uid : Nat) (t : ℚ) : CooldownMap :=
  fun u => if u = uid then t else m u

inductive StatsResponse where
  | cooldownNotice (remaining : ℚ)
  | playerNotFound
  | noStats
  | statsEmbed (win_rate : String) (icons : List Glyph)
  | crashed (msg : String)
deriving Repr

structure StatsRun where
  apiCalls : Nat
  response : StatsResponse
  cooldowns : CooldownMap

/-- The `/stats` slash-command handler.  The cooldown gate runs before
any API call; `get_player_data` is one call, and on success
`get_player_stats` and `get_match_history` are both issued before the
lifetime check.  The cooldown timestamp is written only after the final
embed is sent. -/
def stats (env : StatsEnv) (cooldowns : CooldownMap) (userId : Nat) : StatsRun :=
  let current_time := env.now
  if current_time - cooldowns userId < RATE_LIMIT_COOLDOWN then
    ⟨0, .cooldownNotice (RATE_LIMIT_COOLDOWN - (current_time - cooldowns userId)), cooldowns⟩
  else
    match env.player_data with
    | none => ⟨1, .playerNotFound, cooldowns⟩
    | some pd =>
        match env.player_stats with
        | none => ⟨3, .noStats, cooldowns⟩
        | some ps =>
            match ps.lifetime with
            | none => ⟨3, .noStats, cooldowns⟩
            | some ls =>
                let wins := ls.wins.getD "0"
                let matchCount := ls.matchCount.getD "0"
                match calculate_win_rate (.str wins) (.str matchCount) with
                | .error e => ⟨3, .crashed e, cooldowns⟩
                | .ok win_rate =>
                    match env.player_history with
                    | none => ⟨3, .crashed "AttributeError", cooldowns⟩
                    | some hist =>
                        match recentResultIcons (hist.items.getD []) with
                        | .error e => ⟨3, .crashed e, cooldowns⟩
                        | .ok icons =>
                            match pd.faceit_url with
                            | none => ⟨3, .crashed "AttributeError", cooldowns⟩
                            | some _ =>
                                ⟨3, .statsEmbed win_rate icons,
                                  updateCooldown cooldowns userId current_time⟩

/-- C8: a stats query inside the 5-second cooldown window issues zero API
calls and answers with a cooldown notice whose remaining-seconds value is
strictly positive, leaving the cooldown map untouched; and on any
invocation the cooldown map changes only when the command completes with
the stats embed, in which case the user's entry becomes the invocation's
timestamp. -/
theorem stats_cooldown_blocks (env : StatsEnv) (cooldowns : CooldownMap) (userId : Nat)
    (h : env.now - cooldowns userId < RATE_LIMIT_COOLDOWN) :
    (stats env cooldowns userId).apiCalls = 0
    ∧ (stats env cooldowns userId).response
        = StatsResponse.cooldownNotice (RATE_LIMIT_COOLDOWN - (env.now - cooldowns userId))
    ∧ 0 < RATE_LIMIT_COOLDOWN - (env.now - cooldowns userId)
    ∧ (stats env cooldowns userId).cooldowns = cooldowns
    ∧ ∀ env2 cd2 u2, (stats env2 cd2 u2).cooldowns ≠ cd2 →
        ∃ w icons, (stats env2 cd2 u2).response = StatsResponse.statsEmbed w icons
          ∧ (stats env2 cd2 u2).cooldowns = updateCooldown cd2 u2 env2.now := by
  refine ⟨by simp [stats, h], by simp [stats, h], sub_pos.2 h, by simp [stats, h], ?_⟩
  intro env2 cd2 u2 hne
  by_cases h0 : env2.now - cd2 u2 < RATE_LIMIT_COOLDOWN
  · exact absurd (by simp [stats, h0]) hne
  · rcases hpd : env2.player_data with _ | pd
    · exact absurd (by simp [stats, h0, hpd]) hne
    · rcases hps : env2.player_stats with _ | ps
      · exact absurd (by simp [stats, h0, hpd, hps]) hne
      · rcases hlt : ps.lifetime with _ | ls
        · exact absurd (by simp [stats, h0, hpd, hps, hlt]) hne
        · rcases hwr : calculate_win_rate (.str (ls.wins.getD "0"))
              (.str (ls.matchCount.getD "0")) with e | wr
          · exact absurd (by simp [stats, h0, hpd, hps, hlt, hwr]) hne
          · rcases hh : env2.player_history with _ | hist
            · exact absurd (by simp [stats, h0, hpd, hps, hlt, hwr, hh]) hne
            · rcases hic : recentResultIcons (hist.items.getD []) with e | icons
              · exact absurd (by simp [stats, h0, hpd, hps, hlt, hwr, hh, hic]) hne
              · rcases hurl : pd.faceit_url with _ | url
                · exact absurd (by simp [stats, h0, hpd, hps, hlt, hwr, hh, hic, hurl]) hne
                · exact ⟨wr, icons,
                    by simp [stats, h0, hpd, hps, hlt, hwr, hh, hic, hurl],
                    by simp [stats, h0, hpd, hps, hlt, hwr, hh, hic, hurl]⟩

def c8Env : StatsEnv := ⟨3, none, none, none⟩

def c8Cooldowns : CooldownMap := fun _ => 0

theorem stats_cooldown_blocks_witness :
    (stats c8Env c8Cooldowns 1).apiCalls = 0
    ∧ (stats c8Env c8Cooldowns 1).response
        = StatsResponse.cooldownNotice (RATE_LIMIT_COOLDOWN - (c8Env.now - c8Cooldowns 1))
    ∧ 0 < RATE_LIMIT_COOLDOWN - (c8Env.now - c8Cooldowns 1)
    ∧ (stats c8Env c8Cooldowns 1).cooldowns = c8Cooldowns
    ∧ ∀ env2 cd2 u2, (stats env2 cd2 u2).cooldowns ≠ cd2 →
        ∃ w icons, (stats env2 cd2 u2).response = StatsResponse.statsEmbed w icons
          ∧ (stats env2 cd2 u2).cooldowns = updateCooldown cd2 u2 env2.now :=
  stats_cooldown_blocks c8Env c8Cooldowns 1
    (by norm_num [c8Env, c8Cooldowns, RATE_LIMIT_COOLDOWN])

/-- A match in which the requesting player "p1" is on faction2, the
winner is faction2, and faction1 is fully populated. -/
def c3Match : PyMatch :=
  ⟨[some "p9"], some "team-a", [some "p1"], some "team-b", some "team-b"⟩

/-- C3 (code bug): the winning faction id equals the requesting player
"p1"'s own faction id in `c3Match`, so the claim requires a win glyph;
the code compares the winner only against `faction1`'s id — never against
the requester's side — and emits a loss glyph. -/
theorem stats_glyph_ignores_requester_faction :
    playerFactionId "p1" c3Match = c3Match.winner_id
    ∧ c3Match.faction1_faction_id ≠ c3Match.winner_id
    ∧ matchGlyph c3Match = .ok (some Glyph.loss)
    ∧ recentResultIcons [c3Match] = .ok [Glyph.loss] := by
  refine ⟨rfl, by decide, rfl, rfl⟩

def c6MissingTeams : PyMatch := ⟨[], none, [], none, some "w"⟩

def c6Good : PyMatch := ⟨[some "p"], some "f1", [], none, some "f1"⟩

def c6NoWinner : PyMatch := ⟨[some "p"], some "f1", [], none, none⟩

/-- C6 (code bug): a match lacking winner data is silently skipped as the
claim says, but a match lacking faction data (missing or empty
`teams.faction1.players`) raises `IndexError` from the bare `[0]` index,
aborting the loop: with such a match first, the remaining matches are
never processed and no glyphs survive. -/
theorem stats_glyph_missing_faction_raises :
    matchGlyph c6NoWinner = .ok none
    ∧ recentResultIcons [c6NoWinner, c6Good] = .ok [Glyph.win]
    ∧ matchGlyph c6MissingTeams = .error "IndexError"
    ∧ recentResultIcons [c6MissingTeams, c6Good] = .error "IndexError" :=
  ⟨rfl, rfl, rfl, rfl⟩

/-! ## The OAuth callback

`verification_states` maps Discord user id to the anti-forgery state
token and its issuance timestamp.  The callback scans the map for an
entry whose token equals the request's `state` parameter (dict iteration
order = insertion order, first match wins); Python truthiness makes a
`None`/`0` match key and a `None`/`""` code fail validation.  The token
exchange plus profile fetch is a single oracle outcome: any
`RequestException` or other exception there yields HTTP 500 after the
entry was already popped. -/

structure VerifEntry where
  state : String
  timestamp : ℚ
deriving DecidableEq, Repr

abbrev VerifMap := List (Nat × VerifEntry)

/-- The `for key, value in verification_states.items()` scan with `break`
on the first entry whose `state` equals the request's. -/
def findMatchingUser : VerifMap → Option String → Option Nat
  | [], _ => none
  | (k, v) :: rest, st =>
      if some v.state = st then some k else findMatchingUser rest st

/-- `verification_states.pop(discord_id, None)`. -/
def popKey (m : VerifMap) (k : Nat) : VerifMap :=
  m.filter (fun p => p.1 != k)

inductive OAuthExchange where
  | success (nickname : String) (skill : Nat)
  | requestError (msg : String)
  | otherError (msg : String)
deriving DecidableEq, Repr

inductive CallbackResponse where
  | verified (nickname : String)
  | badRequest
  | serverError
deriving DecidableEq, Repr

/-- The `/oauth-callback` route: response and the verification map it
leaves behind. -/
def oauth_callback (exchange : OAuthExchange) (code state : Option String)
    (m : VerifMap) : CallbackResponse × VerifMap :=
  match findMatchingUser m state with
  | none => (.badRequest, m)
  | some discord_id =>
      if discord_id = 0 then (.badRequest, m)
      else if !pyTruthy code then (.badRequest, m)
      else
        let m' := popKey m discord_id
        match exchange with
        | .success nickname _ => (.verified nickname, m')
        | .requestError _ => (.serverError, m')
        | .otherError _ => (.serverError, m')

theorem findMatchingUser_popKey_none (m : VerifMap) (uid : Nat) (s : String)
    (huniq : ∀ p ∈ m, p.2.state = s → p.1 = uid) :
    findMatchingUser (popKey m uid) (some s) = none := by
  induction m with
  | nil => rfl
  | cons p rest ih =>
      obtain ⟨k, v⟩ := p
      have hrest := ih (fun q hq hs => huniq q (by simp [hq]) hs)
      simp only [popKey, List.filter_cons] at hrest ⊢
      by_cases hk : k = uid
      · simp [hk, hrest]
      · have hvs : ¬v.state = s := fun hs => hk (huniq (k, v) (by simp) hs)
        simp [hk, findMatchingUser, hvs, hrest]

theorem mem_popKey_ne (m : VerifMap) (uid : Nat) (v : VerifEntry) :
    (uid, v) ∉ popKey m uid := by
  intro hmem
  have := (List.mem_filter.1 hmem).2
  simp at this

/-- C4: a callback whose state token matches a stored entry (for a real,
nonzero Discord id, carrying a nonempty authorization code, the token
unique in the map) removes that entry — whatever the outcome of the token
exchange and profile fetch — and a second callback presenting the same
token finds no entry, receives the 400 response, and changes nothing. -/
theorem oauth_callback_consumes_state_once
    (m : VerifMap) (uid : Nat) (s c : String) (ex ex2 : OAuthExchange) (code2 : Option String)
    (hfind : findMatchingUser m (some s) = some uid)
    (huid : uid ≠ 0)
    (hc : c ≠ "")
    (huniq : ∀ p ∈ m, p.2.state = s → p.1 = uid) :
    (oauth_callback ex (some c) (some s) m).2 = popKey m uid
    ∧ (∀ v, (uid, v) ∉ (oauth_callback ex (some c) (some s) m).2)
    ∧ oauth_callback ex2 code2 (some s) (oauth_callback ex (some c) (some s) m).2
        = (CallbackResponse.badRequest, popKey m uid) := by
  have hmap : (oauth_callback ex (some c) (some s) m).2 = popKey m uid := by
    cases ex <;> simp [oauth_callback, hfind, huid, pyTruthy, hc]
  refine ⟨hmap, ?_, ?_⟩
  · intro v
    rw [hmap]
    exact mem_popKey_ne m uid v
  · rw [hmap]
    simp [oauth_callback, findMatchingUser_popKey_none m uid s huniq]

def c4Map : VerifMap := [(11, ⟨"tok", 0⟩), (12, ⟨"other", 0⟩)]

theorem oauth_callback_consumes_state_once_witness :
    (oauth_callback (OAuthExchange.requestError "boom") (some "authcode") (some "tok") c4Map).2
      = popKey c4Map 11
    ∧ (∀ v, (11, v) ∉ (oauth_callback (OAuthExchange.requestError "boom")
        (some "authcode") (some "tok") c4Map).2)
    ∧ oauth_callback (OAuthExchange.success "nick" 5) (some "authcode") (some "tok")
        (oauth_callback (OAuthExchange.requestError "boom") (some "authcode") (some "tok") c4Map).2
        = (CallbackResponse.badRequest, popKey c4Map 11) := by
  have h := oauth_callback_consumes_state_once c4Map 11 "tok" "authcode"
    (OAuthExchange.requestError "boom") (OAuthExchange.success "nick" 5) (some "authcode")
    rfl (by decide) (by decide) (by decide)
  exact h

/-- C5: a callback whose state value matches no stored entry, or which
lacks an authorization code, returns the 400 response and leaves the
verification map exactly as it was, for every exchange outcome. -/
theorem oauth_callback_rejects_unmatched
    (m : VerifMap) (code state : Option String) (ex : OAuthExchange)
    (h : (∀ p ∈ m, some p.2.state ≠ state) ∨ code = none) :
    oauth_callback ex code state m = (CallbackResponse.badRequest, m) := by
  rcases h with h | h
  · have hfind : findMatchingUser m state = none := by
      induction m with
      | nil => rfl
      | cons p rest ih =>
          obtain ⟨k, v⟩ := p
          have : ¬some v.state = state := h (k, v) (by simp)
          simp [findMatchingUser, this, ih (fun q hq => h q (by simp [hq]))]
    simp [oauth_callback, hfind]
  · subst h
    rcases hfind : findMatchingUser m state with _ | uid
    · simp [oauth_callback, hfind]
    · by_cases huid : uid = 0 <;> simp [oauth_callback, hfind, huid, pyTruthy]

theorem oauth_callback_rejects_unmatched_witness :
    oauth_callback (OAuthExchange.success "nick" 5) (some "authcode") (some "missing")
      [(11, ⟨"tok", 0⟩)] = (CallbackResponse.badRequest, [(11, ⟨"tok", 0⟩)]) :=
  oauth_callback_rejects_unmatched [(11, ⟨"tok", 0⟩)] (some "authcode") (some "missing")
    (OAuthExchange.success "nick" 5) (Or.inl (by decide))

end FaceitBot
